import Mathlib

/-!
Verification of the classification and templating core of the
`portkey-ai-evolv` repository against its natural-language specification.

The Python sources are shallowly embedded: pure functions become Lean
functions over `List Char` / `String` / `Nat` / `Int` / `ℚ`; database
tables become lists of row structures; the worker loops become explicit
step functions over a state record.  External libraries (hashlib's MD5,
sklearn's cosine similarity) are abstracted as function parameters, since
they are not code of this repository; everything else follows the source
line by line.
-/

namespace Evolv

/-! ## packages/ingestion/normalizer.py -/

/-- Model of Python's regex class `\w` (word character) restricted to the
ASCII range: alphanumeric or underscore.  This is the class used by
`re.sub(r'[^\w\s]', '', text)` in `normalize_text`. -/
def isWordChar (c : Char) : Bool := c.isAlphanum || c = '_'

/-- Model of Python's regex class `\s` (whitespace) restricted to the ASCII
range: space, tab, newline, carriage return, vertical tab, form feed. -/
def isSpaceChar (c : Char) : Bool :=
  c = ' ' || c = '\t' || c = '\n' || c = '\r' || c = '\x0b' || c = '\x0c'

/-- Model of `re.sub(r'\s+', ' ', text)`: each maximal run of whitespace is
replaced by a single space.  The boolean argument records whether the
previous character was whitespace (so the current run is already open). -/
def collapseWs : List Char → Bool → List Char
  | [], _ => []
  | c :: rest, prevSpace =>
    if isSpaceChar c then
      if prevSpace then collapseWs rest true
      else ' ' :: collapseWs rest true
    else c :: collapseWs rest false

/-- Model of Python `str.strip()` on a list of characters: drop leading and
trailing whitespace. -/
def stripChars (l : List Char) : List Char :=
  ((l.dropWhile isSpaceChar).reverse.dropWhile isSpaceChar).reverse

/-- Embedding of `normalize_text` (normalizer.py lines 10-36): lowercase,
remove characters matching `[^\w\s]`, collapse whitespace runs to a single
space, strip. -/
def normalize_text (s : String) : String :=
  let lowered := s.data.map Char.toLower
  let filtered := lowered.filter (fun c => isWordChar c || isSpaceChar c)
  let collapsed := collapseWs filtered false
  String.mk (stripChars collapsed)

/-- Model of Python `str.strip()` on a `String`, used by
`detect_slot_type` to clean example values. -/
def pyStrip (s : String) : String := String.mk (stripChars s.data)

/-! ## packages/ingestion/dedup.py -/

/-- Fuel-driven popcount: `popCountAux fuel n` sums the low `fuel` binary
digits of `n`. -/
def popCountAux : Nat → Nat → Nat
  | 0, _ => 0
  | fuel + 1, n => n % 2 + popCountAux fuel (n / 2)

/-- Number of set bits of `n`, the model of Python's
`bin(n).count("1")`.  Using `n` itself as fuel is enough since `n < 2 ^ n`. -/
def popCount (n : Nat) : Nat := popCountAux n n

/-- Embedding of `hamming_distance` (dedup.py lines 54-65): popcount of the
XOR of the two fingerprints. -/
def hammingDistance (a b : Nat) : Nat := popCount (a ^^^ b)

/-- Model of Python `str.split()` (no separator): split into maximal runs of
non-whitespace, dropping empty pieces.  The accumulator holds the current
token reversed. -/
def splitWsAux : List Char → List Char → List (List Char)
  | [], cur => if cur.isEmpty then [] else [cur.reverse]
  | c :: rest, cur =>
    if isSpaceChar c then
      if cur.isEmpty then splitWsAux rest []
      else cur.reverse :: splitWsAux rest []
    else splitWsAux rest (c :: cur)

/-- Whitespace tokenisation used by `simhash` (`text.split()`). -/
def pySplit (s : String) : List String :=
  (splitWsAux s.data []).map String.mk

/-- Bit `i` of `n`, the model of `(h >> i) & 1`. -/
def bitOf (n i : Nat) : Nat := (n >>> i) % 2

/-- Embedding of `simhash` (dedup.py lines 15-51), parametric in the token
hash `h`, which models the external `hashlib.md5`-derived 64-bit token hash
(`int(md5(token).hexdigest(), 16) & ((1 << num_bits) - 1)` becomes
`h token % 2 ^ numBits`).  For each bit position the signed accumulator adds
+1 when the token hash has the bit set and -1 otherwise; the output bit is
set exactly when the accumulator is positive.  Empty token list gives 0. -/
def simhashWith (h : String → Nat) (numBits : Nat) (text : String) : Nat :=
  let tokens := pySplit text
  if tokens.isEmpty then 0
  else
    (List.range numBits).foldl
      (fun acc i =>
        let v : Int :=
          (tokens.map (fun t =>
            if bitOf (h t % 2 ^ numBits) i = 1 then (1 : Int) else -1)).foldl (· + ·) 0
        if v > 0 then acc + 2 ^ i else acc)
      0

/-- The scan shared by `SimHashDeduplicator.is_near_duplicate` (dedup.py
lines 104-111) and the ingestion worker (worker.py lines 116-125): walk the
stored fingerprints in index (insertion) order and stop at the first one
whose Hamming distance to the candidate fingerprint is within the
threshold, returning its prompt id and distance. -/
def nearDupScan (fp : Nat) (fps : List (String × Nat)) (threshold : Nat) :
    Option (String × Nat) :=
  match fps with
  | [] => none
  | (pid, efp) :: rest =>
    let d := hammingDistance fp efp
    if d ≤ threshold then some (pid, d) else nearDupScan fp rest threshold

/-- Embedding of `SimHashDeduplicator.is_near_duplicate` (dedup.py lines
94-111): compute the candidate's SimHash and scan the indexed fingerprints,
returning `(is_duplicate, matching_id, distance)`. -/
def isNearDuplicate (h : String → Nat) (threshold : Nat)
    (fps : List (String × Nat)) (text : String) :
    Bool × Option String × Option Nat :=
  match nearDupScan (simhashWith h 64 text) fps threshold with
  | some (pid, d) => (true, some pid, some d)
  | none => (false, none, none)

/-! ## packages/ingestion/worker.py (deduplicating ingestion loop) -/

/-- The fields of a `PromptInstance` that the deduplicating loop in
`run_worker` reads: the normalized text, the SHA-256 dedup hash (an opaque
string computed upstream by `compute_hash`, deterministic in the
normalized text) and the precomputed SimHash value (`int(instance.simhash,
16)` when present). -/
structure IngestInstance where
  prompt_id : String
  normalized_text : String
  dedup_hash : String
  simhash : Option Nat
  deriving DecidableEq, Repr

/-- The state threaded through the loop of `run_worker` (worker.py lines
96-137): the prompt rows persisted so far (`repo`), the in-memory
fingerprint index of the deduplicator, and the three counters. -/
structure IngestState where
  store : List IngestInstance
  fingerprints : List (String × Nat)
  saved : Nat
  exact_dups : Nat
  near_dups : Nat
  deriving DecidableEq, Repr

/-- One iteration of the `for instance in instances` body of `run_worker`
(worker.py lines 100-137): skip empty prompts; count an exact duplicate
when a stored prompt has the same dedup hash; otherwise count a near
duplicate when the fingerprint scan hits; otherwise persist the prompt and
index its fingerprint. -/
def ingestStep (threshold : Nat) (st : IngestState) (inst : IngestInstance) :
    IngestState :=
  if inst.normalized_text = "" then st
  else if st.store.any (fun p => p.dedup_hash = inst.dedup_hash) then
    { st with exact_dups := st.exact_dups + 1 }
  else
    let isNear :=
      match inst.simhash with
      | some fp => (nearDupScan fp st.fingerprints threshold).isSome
      | none => false
    if isNear then { st with near_dups := st.near_dups + 1 }
    else
      { st with
        store := st.store ++ [inst]
        fingerprints := st.fingerprints ++
          (match inst.simhash with
           | some fp => [(inst.prompt_id, fp)]
           | none => [])
        saved := st.saved + 1 }

/-- The whole deduplicating batch of `run_worker`: fold `ingestStep` over
the incoming instances. -/
def runIngest (threshold : Nat) (st : IngestState)
    (insts : List IngestInstance) : IngestState :=
  insts.foldl (ingestStep threshold) st

/-- The initial ingestion state over an empty prompt store. -/
def emptyIngestState : IngestState :=
  { store := [], fingerprints := [], saved := 0, exact_dups := 0, near_dups := 0 }

/-! ## packages/template_engine/slot_detector.py -/

/-- Embedding of the `SlotType` enum. -/
inductive SlotType where
  | numeric
  | enum
  | text
  | date
  | email
  | url
  deriving DecidableEq, Repr

/-- Character class `[\w.-]` used by the email regex. -/
def isWdd (c : Char) : Bool := isWordChar c || c = '.' || c = '-'

/-- Matcher for `NUMERIC_PATTERN = ^-?\d+\.?\d*$`: an optional minus sign,
one or more digits, then either the end or a dot followed by digits only. -/
def matchNumeric (s : String) : Bool :=
  let l := match s.data with
    | '-' :: rest => rest
    | l => l
  let ds := l.takeWhile Char.isDigit
  let rest := l.dropWhile Char.isDigit
  (!ds.isEmpty) &&
    (match rest with
     | [] => true
     | '.' :: r2 => r2.all Char.isDigit
     | _ => false)

/-- First alternative of `DATE_PATTERN`: the prefix `\d{4}-\d{2}-\d{2}`
(`re.match` anchors at the start; this alternative has no end anchor). -/
def isoDatePrefix (l : List Char) : Bool :=
  match l with
  | a :: b :: c :: d :: '-' :: e :: f :: '-' :: g :: h :: _ =>
    [a, b, c, d, e, f, g, h].all Char.isDigit
  | _ => false

/-- Second alternative of `DATE_PATTERN`: the full match
`\d{1,2}/\d{1,2}/\d{2,4}$`.  Since `/` is not a digit the greedy digit runs
are forced, so the match is equivalent to checking the run lengths. -/
def usDateFull (l : List Char) : Bool :=
  let d1 := l.takeWhile Char.isDigit
  let r1 := l.dropWhile Char.isDigit
  match r1 with
  | '/' :: r2 =>
    let d2 := r2.takeWhile Char.isDigit
    let r3 := r2.dropWhile Char.isDigit
    (match r3 with
     | '/' :: r4 =>
       let d3 := r4.takeWhile Char.isDigit
       let r5 := r4.dropWhile Char.isDigit
       decide (1 ≤ d1.length) && decide (d1.length ≤ 2) &&
         decide (1 ≤ d2.length) && decide (d2.length ≤ 2) &&
         decide (2 ≤ d3.length) && decide (d3.length ≤ 4) && r5.isEmpty
     | _ => false)
  | _ => false

/-- Matcher for `DATE_PATTERN = ^\d{4}-\d{2}-\d{2}|\d{1,2}/\d{1,2}/\d{2,4}$`
under `re.match` semantics (the alternation splits as written, so the ISO
alternative is a prefix match and the slash alternative a full match). -/
def matchDate (s : String) : Bool :=
  isoDatePrefix s.data || usDateFull s.data

/-- Tail of the email regex after the `@`: `[\w.-]+\.\w+$`.  The final
`\w+` contains no dot, so the dot of the pattern must be the last dot of
the input; both surrounding parts must be nonempty and in their classes. -/
def emailRest (rest : List Char) : Bool :=
  let rev := rest.reverse
  let vrev := rev.takeWhile (fun c => c ≠ '.')
  match rev.dropWhile (fun c => c ≠ '.') with
  | '.' :: urev =>
    (!vrev.isEmpty) && vrev.all isWordChar &&
      (!urev.isEmpty) && urev.all isWdd
  | _ => false

/-- Matcher for `EMAIL_PATTERN = ^[\w\.-]+@[\w\.-]+\.\w+$`.  The class
`[\w.-]` excludes `@`, so the pattern's `@` must match the first `@` of the
input. -/
def matchEmail (s : String) : Bool :=
  let before := s.data.takeWhile (fun c => c ≠ '@')
  match s.data.dropWhile (fun c => c ≠ '@') with
  | '@' :: rest => (!before.isEmpty) && before.all isWdd && emailRest rest
  | _ => false

/-- Matcher for `URL_PATTERN = ^https?://|www\.` under `re.match`: the input
starts with `http://`, `https://` or `www.`. -/
def matchUrl (s : String) : Bool :=
  "http://".data.isPrefixOf s.data || "https://".data.isPrefixOf s.data ||
    "www.".data.isPrefixOf s.data

/-- The regex validators that `detect_slots` attaches to slots.  They are
the only `validation_pattern` values this program ever constructs, so the
embedding represents the pattern string by which of the three it is. -/
inductive RegexPat where
  | numericPat
  | emailPat
  | urlPat
  deriving DecidableEq, Repr

/-- Application of a stored validation pattern to a value, the model of
`re.match(slot.validation_pattern, value_str)`.  The url pattern stored by
`detect_slots` is `^https?://` (without the `www.` alternative). -/
def RegexPat.matches : RegexPat → String → Bool
  | .numericPat, s => matchNumeric s
  | .emailPat, s => matchEmail s
  | .urlPat, s =>
    "http://".data.isPrefixOf s.data || "https://".data.isPrefixOf s.data

/-- Embedding of the `Slot` dataclass (slot_detector.py lines 24-35). -/
structure Slot where
  name : String
  slot_type : SlotType
  position : Nat
  examples : List String
  enum_values : Option (List String) := none
  validation_pattern : Option RegexPat := none
  description : Option String := none
  required : Bool := true
  default_value : Option String := none
  deriving DecidableEq, Repr

/-- Embedding of `detect_slot_type` (slot_detector.py lines 53-99): strip
the examples and drop empty ones, then test all-numeric, all-date,
all-email, all-url in order; an enum needs at most 5 distinct values among
at least 3 examples; otherwise the slot is free text.  `List.dedup` models
`set(cleaned)` (only its size is used). -/
def detect_slot_type (examples : List String) : SlotType :=
  if examples.isEmpty then .text
  else
    let cleaned := (examples.map pyStrip).filter (fun ex => ex ≠ "")
    if cleaned.isEmpty then .text
    else if cleaned.all matchNumeric then .numeric
    else if cleaned.all matchDate then .date
    else if cleaned.all matchEmail then .email
    else if cleaned.all matchUrl then .url
    else if cleaned.dedup.length ≤ 5 && 3 ≤ cleaned.length then .enum
    else .text

/-- Python `str.lower()` on a string. -/
def lowerStr (s : String) : String := String.mk (s.data.map Char.toLower)

/-- Substring test, the model of Python's `needle in hay`. -/
def containsSub (needle hay : List Char) : Bool :=
  (List.range (hay.length + 1)).any (fun i => needle.isPrefixOf (hay.drop i))

/-- Embedding of `generate_slot_name` (slot_detector.py lines 102-140).
NUMERIC slots get `word_count` / `percentage` / `number_<position>`; DATE,
EMAIL and URL slots get the constant names `date`, `email`, `url`; ENUM
slots are named after the first example (lowercased, spaces replaced by
underscores, truncated to 15 characters) with an `_option` suffix; TEXT
slots get `text_<position>`. -/
def generate_slot_name (position : Nat) (examples : List String)
    (slot_type : SlotType) : String :=
  match slot_type with
  | .numeric =>
    if (examples.map lowerStr).any (fun ex => containsSub "word".data ex.data) then
      "word_count"
    else if examples.any (fun ex => ex.data.contains '%') then "percentage"
    else "number_" ++ toString position
  | .date => "date"
  | .email => "email"
  | .url => "url"
  | .enum =>
    match examples with
    | [] => "option_" ++ toString position
    | e :: _ =>
      String.mk
        (((e.data.map Char.toLower).map
            (fun c => if c = ' ' then '_' else c)).take 15) ++ "_option"
  | .text => "text_" ++ toString position

/-- The part of an `AlignmentResult` that slot detection consumes: the
variable regions as `(start, end, examples)` triples. -/
structure AlignmentResult where
  common_structure : String
  variable_regions : List (Nat × Nat × List String)
  prompts : List String
  deriving Repr

/-- Embedding of `detect_slots` (slot_detector.py lines 143-186): for the
`i`-th variable region, detect the type of its examples, generate a name
from the region index, and build a slot at the region's start position with
at most 10 examples, enum values for enums (`list(set(examples))`, modelled
as `examples.dedup`; only membership and emptiness of this list are ever
used) and the appropriate validation pattern. -/
def detect_slots (alignment : AlignmentResult) : List Slot :=
  alignment.variable_regions.enum.map (fun p =>
    let i := p.1
    let start := p.2.1
    let examples := p.2.2.2
    let st := detect_slot_type examples
    { name := generate_slot_name i examples st
      slot_type := st
      position := start
      examples := examples.take 10
      enum_values := if st = .enum then some examples.dedup else none
      validation_pattern :=
        if st = .numeric then some .numericPat
        else if st = .email then some .emailPat
        else if st = .url then some .urlPat
        else none })

/-- Embedding of the `SlotValidationResult` dataclass. -/
structure SlotValidationResult where
  is_valid : Bool
  errors : List String
  warnings : List String
  deriving DecidableEq, Repr

/-- Python-dict insertion: overwrite the value in place when the key is
present, otherwise append the pair.  This reproduces both the key order and
the last-write-wins semantics of a `dict` built by successive insertions. -/
def pyDictInsert {α : Type} (m : List (String × α)) (k : String) (v : α) :
    List (String × α) :=
  if m.any (fun p => p.1 = k) then
    m.map (fun p => if p.1 = k then (k, v) else p)
  else m ++ [(k, v)]

/-- Lookup in an association list with Python-dict semantics (keys are
unique by construction of `pyDictInsert`). -/
def pyDictGet {α : Type} (m : List (String × α)) (k : String) : Option α :=
  (m.find? (fun p => p.1 = k)).map (fun p => p.2)

/-- The dictionary `{slot.name: slot for slot in slots}` built by
`SlotValidator.__init__`. -/
def slotsDict (slots : List Slot) : List (String × Slot) :=
  slots.foldl (fun m s => pyDictInsert m s.name s) []

/-- The required-slot loop of `SlotValidator.validate` (slot_detector.py
lines 209-214): a required slot with no provided value yields a warning
when it has a default and an error otherwise.  Message texts follow the
source minus the quote characters around names. -/
def validateRequired (sdict : List (String × Slot))
    (params : List (String × String)) : List String × List String :=
  sdict.foldl
    (fun acc p =>
      let name := p.1
      let slot := p.2
      if slot.required && !(params.any (fun q => q.1 = name)) then
        if slot.default_value.isSome then
          (acc.1, acc.2 ++ ["Using default value for " ++ name])
        else (acc.1 ++ ["Missing required slot: " ++ name], acc.2)
      else acc)
    ([], [])

/-- The per-value loop of `SlotValidator.validate` (slot_detector.py lines
217-249): unknown names warn; NUMERIC, ENUM, EMAIL and URL values are
checked against their type; any stored `validation_pattern` is checked as
well. -/
def validateValues (sdict : List (String × Slot))
    (params : List (String × String)) : List String × List String :=
  params.foldl
    (fun acc q =>
      let name := q.1
      let value := q.2
      match pyDictGet sdict name with
      | none => (acc.1, acc.2 ++ ["Unknown slot: " ++ name])
      | some slot =>
        let typeErrs :=
          match slot.slot_type with
          | .numeric =>
            if !matchNumeric value then
              ["Slot " ++ name ++ " must be numeric, got: " ++ value]
            else []
          | .enum =>
            match slot.enum_values with
            | some evs =>
              if !evs.isEmpty && !evs.contains value then
                ["Slot " ++ name ++ " must be one of its enum values, got: " ++ value]
              else []
            | none => []
          | .email =>
            if !matchEmail value then
              ["Slot " ++ name ++ " must be a valid email, got: " ++ value]
            else []
          | .url =>
            if !matchUrl value then
              ["Slot " ++ name ++ " must be a valid URL, got: " ++ value]
            else []
          | _ => []
        let patErrs :=
          match slot.validation_pattern with
          | some pat =>
            if !pat.matches value then
              ["Slot " ++ name ++ " failed pattern validation: " ++ value]
            else []
          | none => []
        (acc.1 ++ typeErrs ++ patErrs, acc.2))
    ([], [])

/-- Embedding of `SlotValidator.validate` (slot_detector.py lines 195-255):
run the required-slot loop then the value loop; the result is valid exactly
when no errors were produced. -/
def validate (slots : List Slot) (params : List (String × String)) :
    SlotValidationResult :=
  let sdict := slotsDict slots
  let r1 := validateRequired sdict params
  let r2 := validateValues sdict params
  { is_valid := (r1.1 ++ r2.1).isEmpty
    errors := r1.1 ++ r2.1
    warnings := r1.2 ++ r2.2 }

/-! ## packages/template_engine/template_builder.py and exposure.py -/

/-- Embedding of the `CanonicalTemplate` dataclass (template_builder.py
lines 14-20). -/
structure CanonicalTemplate where
  text : String
  slots : List Slot
  source_prompts : List String := []
  slot_map : List (String × Nat) := []
  deriving DecidableEq, Repr

/-- Embedding of the `RenderResult` dataclass (exposure.py lines 14-20). -/
structure RenderResult where
  success : Bool
  rendered_text : Option String := none
  validation : Option SlotValidationResult := none
  errors : List String := []
  deriving DecidableEq, Repr

/-- The loop body and fold of the `final_params` construction of
`render_template` (exposure.py lines 70-77), generalised over the starting
dictionary for reasoning: a provided value wins; otherwise a default value
is used when present; otherwise a non-required slot is given the empty
string; a required slot with neither value nor default produces no entry
at all. -/
def finalParamsFrom (slots : List Slot) (params : List (String × String))
    (acc : List (String × String)) : List (String × String) :=
  slots.foldl
    (fun fp slot =>
      match pyDictGet params slot.name with
      | some v => pyDictInsert fp slot.name v
      | none =>
        match slot.default_value with
        | some d => pyDictInsert fp slot.name d
        | none =>
          if !slot.required then pyDictInsert fp slot.name ""
          else fp)
    acc

/-- The `final_params` dictionary of `render_template`, built starting
from the empty dictionary as in the source. -/
def finalParams (slots : List Slot) (params : List (String × String)) :
    List (String × String) :=
  finalParamsFrom slots params []

/-- Model of Python `str.replace`: scan left to right, replacing
non-overlapping occurrences of the pattern.  The fuel argument (the length
of the scanned text) only drives structural recursion; every step consumes
at least one character.  An empty pattern leaves the text unchanged (the
interpolation placeholders are never empty). -/
def replaceScan (pattern repl : List Char) : Nat → List Char → List Char
  | 0, s => s
  | fuel + 1, s =>
    match s with
    | [] => []
    | c :: rest =>
      if !pattern.isEmpty && pattern.isPrefixOf (c :: rest) then
        repl ++ replaceScan pattern repl fuel ((c :: rest).drop pattern.length)
      else c :: replaceScan pattern repl fuel rest

/-- Python `str.replace` on strings. -/
def pyReplace (s pattern repl : String) : String :=
  String.mk (replaceScan pattern.data repl.data s.data.length s.data)

/-- Embedding of `_interpolate` (exposure.py lines 95-112): for each
parameter, replace every occurrence of the placeholder
`\x7b\x7bname\x7d\x7d` by the value. -/
def interpolate (template_text : String) (params : List (String × String)) :
    String :=
  params.foldl
    (fun result p => pyReplace result ("\x7b\x7b" ++ p.1 ++ "\x7d\x7d") p.2)
    template_text

/-- Embedding of `render_template` (exposure.py lines 41-92).  In strict
mode a failed validation short-circuits with the validator's errors and no
text; otherwise the template text is interpolated against `finalParams`
(the try/except around `_interpolate` never fires since the embedding of
`_interpolate` is total). -/
def render_template (template : CanonicalTemplate)
    (params : List (String × String)) (strict : Bool) : RenderResult :=
  if strict then
    let v := validate template.slots params
    if !v.is_valid then
      { success := false, rendered_text := none, validation := some v
        errors := v.errors }
    else
      { success := true
        rendered_text := some (interpolate template.text (finalParams template.slots params))
        validation := some v, errors := [] }
  else
    { success := true
      rendered_text := some (interpolate template.text (finalParams template.slots params))
      validation := none, errors := [] }

/-! ## packages/template_engine/versioning.py -/

/-- Embedding of the `VersionBumpType` enum. -/
inductive VersionBumpType where
  | NONE
  | PATCH
  | MINOR
  | MAJOR
  deriving DecidableEq, Repr

/-- Embedding of the `TemplateVersion` dataclass. -/
structure TemplateVersion where
  major : Nat
  minor : Nat
  patch : Nat
  deriving DecidableEq, Repr

/-- Embedding of `TemplateVersion.bump` (versioning.py lines 41-49). -/
def TemplateVersion.bump (v : TemplateVersion) (bt : VersionBumpType) :
    TemplateVersion :=
  match bt with
  | .MAJOR => ⟨v.major + 1, 0, 0⟩
  | .MINOR => ⟨v.major, v.minor + 1, 0⟩
  | .PATCH => ⟨v.major, v.minor, v.patch + 1⟩
  | .NONE => ⟨v.major, v.minor, v.patch⟩

/-- Embedding of the `VersionBumpResult` dataclass.  The `changes` list of
human-readable messages is omitted: its entries embed Python `set` reprs
whose order is unspecified, and no behaviour depends on them. -/
structure VersionBumpResult where
  bump_type : VersionBumpType
  old_version : TemplateVersion
  new_version : TemplateVersion
  deriving DecidableEq, Repr

/-- The `removed_slots = old_slots - new_slots` test of
`compute_version_bump` (versioning.py lines 86-94): the set difference of
the name sets is nonempty exactly when some old name has no occurrence
among the new names. -/
def removedSlotsB (old_t new_t : CanonicalTemplate) : Bool :=
  (old_t.slots.map (fun s => s.name)).any
    (fun nm => !(new_t.slots.map (fun s => s.name)).contains nm)

/-- The `added_slots = new_slots - old_slots` test (versioning.py line 99). -/
def addedSlotsB (old_t new_t : CanonicalTemplate) : Bool :=
  (new_t.slots.map (fun s => s.name)).any
    (fun nm => !(old_t.slots.map (fun s => s.name)).contains nm)

/-- The nested slot-type comparison loop (versioning.py lines 106-114). -/
def retypedSlotsB (old_t new_t : CanonicalTemplate) : Bool :=
  old_t.slots.any (fun os =>
    new_t.slots.any (fun ns =>
      os.name = ns.name && os.slot_type ≠ ns.slot_type))

/-- Embedding of `compute_version_bump` (versioning.py lines 61-128): a
missing old version defaults to 1.0.0; removed slots set MAJOR; added
slots set MINOR unless already MAJOR; a type change on a common name sets
MAJOR; a pure text change sets PATCH only when nothing else fired.  The
four updates happen in exactly the source order. -/
def compute_version_bump (old_t new_t : CanonicalTemplate)
    (old_version : Option TemplateVersion) : VersionBumpResult :=
  let ov := old_version.getD ⟨1, 0, 0⟩
  let bt1 :=
    if removedSlotsB old_t new_t then VersionBumpType.MAJOR
    else VersionBumpType.NONE
  let bt2 :=
    if addedSlotsB old_t new_t then (if bt1 = .MAJOR then bt1 else .MINOR)
    else bt1
  let bt3 := if retypedSlotsB old_t new_t then VersionBumpType.MAJOR else bt2
  let bt4 :=
    if old_t.text ≠ new_t.text && bt3 = .NONE then VersionBumpType.PATCH
    else bt3
  { bump_type := bt4, old_version := ov, new_version := ov.bump bt4 }

/-! ## packages/storage (template rows) and the two template-saving paths -/

/-- The columns of the `templates` table that the template-saving code
reads or writes (storage/models.py lines 70-105).  The model defines no
`template_version` attribute: the two mentions of that name in
repositories.py (`create_template` line 348, `update_template` line 414)
refer to an attribute that does not exist on the ORM model. -/
structure TemplateRow where
  template_id : String
  family_id : String
  parent_template_id : Option String
  is_active : Bool
  template_text : String
  slots : List Slot
  version_major : Nat
  version_minor : Nat
  version_patch : Nat
  deriving DecidableEq, Repr

set_option linter.unusedVariables false in
/-- Embedding of `TemplateRepository.update_template` (repositories.py
lines 399-418) as it actually executes.  When a row with the given id
exists, the method assigns its `template_text` and `slots` in the session
and then evaluates `template.template_version += 1`; the read of
`template_version` raises `AttributeError` because the `Template` model
(storage/models.py lines 70-105) defines no such attribute, and the
exception fires before `self.db.commit()`, so the pending text/slots
mutations are discarded when the session is closed and the table is left
unchanged.  When no row matches, the method returns `None` without
touching the table.  The table is a list of rows in creation order. -/
def updateTemplate (store : List TemplateRow) (tid : String)
    (text : String) (slots : List Slot) : Except String (List TemplateRow) :=
  match store.find? (fun r => r.template_id = tid) with
  | some _ =>
    Except.error "AttributeError: Template object has no attribute template_version"
  | none => Except.ok store

/-- Embedding of `TemplateRepository.get_by_family` (repositories.py lines
376-383): the most recently created template of the family
(`order_by(created_at.desc()).first()`, with the list held in creation
order). -/
def getByFamily (store : List TemplateRow) (fid : String) :
    Option TemplateRow :=
  (store.filter (fun r => r.family_id = fid)).getLast?

/-- The update branch of `TemplateGenerator.process_family`
(ml_core/template_generator.py lines 103-118): when the family already has
a template and an update is triggered, the extracted text and slots are
handed to `update_template`, whose `AttributeError` propagates out of the
extraction.  When the family has no template this branch is not taken (the
creation branch inserts a fresh row instead and is not modelled here). -/
def generatorUpdateExtraction (store : List TemplateRow) (fid : String)
    (text : String) (slots : List Slot) : Except String (List TemplateRow) :=
  match getByFamily store fid with
  | some t => updateTemplate store t.template_id text slots
  | none => Except.ok store

/-- The query for the current active template of a family used by
`TemplatePipeline.update_family` (pipeline.py lines 141-144). -/
def findActiveTemplate (store : List TemplateRow) (fid : String) :
    Option TemplateRow :=
  store.find? (fun r => r.family_id = fid && r.is_active)

/-- Embedding of `TemplatePipeline._template_to_canonical` (pipeline.py
lines 222-230) composed with `template_from_dict`: rebuild a canonical
template from a row's text and slots. -/
def templateRowToCanonical (r : TemplateRow) : CanonicalTemplate :=
  { text := r.template_text, slots := r.slots
    source_prompts := []
    slot_map := r.slots.map (fun s => (s.name, s.position)) }

/-- The template-persisting step of `TemplatePipeline.update_family`
(pipeline.py lines 140-193) as a transformation of the templates table.
When the family has an active template, its version is bumped against the
newly extracted canonical template, the active row is deactivated in place
and a fresh row is appended with `parent_template_id` pointing at it;
otherwise a fresh root row at version 1.0.0 is appended.  `newId` stands
for the generated `uuid.uuid4()` string. -/
def pipelineSaveTemplate (store : List TemplateRow) (fid newId : String)
    (canonical : CanonicalTemplate) : List TemplateRow :=
  match findActiveTemplate store fid with
  | some cur =>
    let bump := compute_version_bump (templateRowToCanonical cur) canonical
      (some ⟨cur.version_major, cur.version_minor, cur.version_patch⟩)
    let newRow : TemplateRow :=
      { template_id := newId
        family_id := fid
        parent_template_id := some cur.template_id
        is_active := true
        template_text := canonical.text
        slots := canonical.slots
        version_major := bump.new_version.major
        version_minor := bump.new_version.minor
        version_patch := bump.new_version.patch }
    (store.map (fun r =>
      if r.template_id = cur.template_id then { r with is_active := false }
      else r)) ++ [newRow]
  | none =>
    store ++
      [{ template_id := newId
         family_id := fid
         parent_template_id := none
         is_active := true
         template_text := canonical.text
         slots := canonical.slots
         version_major := 1
         version_minor := 0
         version_patch := 0 }]

/-! ## packages/ml_core/incremental_worker.py -/

/-- Embedding of `IncrementalWorker.find_nearest_family`
(incremental_worker.py lines 63-96), parametric in `cosSim`, the external
`sklearn.metrics.pairwise.cosine_similarity` (a real-valued similarity,
modelled over ℚ).  An empty centroid map yields `(none, 0)`; otherwise the
centroids are scanned keeping the first strict maximum starting from
similarity -1, and the best family is returned only when its similarity
reaches the threshold. -/
def findNearestFamily (cosSim : List ℚ → List ℚ → ℚ) (threshold : ℚ)
    (embedding : List ℚ) (centroids : List (String × List ℚ)) :
    Option String × ℚ :=
  if centroids.isEmpty then (none, 0)
  else
    let best := centroids.foldl
      (fun acc fc =>
        if cosSim embedding fc.2 > acc.2 then (some fc.1, cosSim embedding fc.2)
        else acc)
      ((none : Option String), (-1 : ℚ))
    if best.2 ≥ threshold then (best.1, best.2) else (none, best.2)

/-- The best-family scan of `find_nearest_family` factored out over an
arbitrary similarity function and starting accumulator, for reasoning;
`findNearestFamily` uses it definitionally. -/
def bestFold (f : String × List ℚ → ℚ) (acc : Option String × ℚ)
    (l : List (String × List ℚ)) : Option String × ℚ :=
  l.foldl (fun a fc => if f fc > a.2 then (some fc.1, f fc) else a) acc

/-- The hard-coded bootstrap threshold of `IncrementalWorker.run_cycle`
(incremental_worker.py line 127). -/
def BOOTSTRAP_THRESHOLD : Nat := 50

/-- The four ways a tick of `run_cycle` can proceed: bootstrap full
classification, skip on a small pending batch, bail out on missing
centroids, or incremental assignment. -/
inductive CycleMode where
  | fullClassification
  | skipped
  | noCentroids
  | incremental
  deriving DecidableEq, Repr

/-- The control flow of `IncrementalWorker.run_cycle`
(incremental_worker.py lines 122-186): a classified count below
`BOOTSTRAP_THRESHOLD` runs the full classifier and returns; then a pending
count below the batch size skips the tick; then an empty centroid map
returns without assigning; otherwise the incremental assignment path
processes the batch. -/
def runCycleMode (classified_count pending_count batch_size : Nat)
    (has_centroids : Bool) : CycleMode :=
  if classified_count < BOOTSTRAP_THRESHOLD then .fullClassification
  else if pending_count < batch_size then .skipped
  else if !has_centroids then .noCentroids
  else .incremental

/-! ## packages/template_engine/alignment.py (pairwise LCS) -/

/-- Length recurrence of the dynamic-programming table of `_lcs_tokens`
(alignment.py lines 76-83), expressed on reversed prefixes: `dp[i][j]` of
the source equals `lcsLenRev` of the reversed length-`i` and length-`j`
prefixes, since `dp[i][j] = dp[i-1][j-1] + 1` when the two last tokens
agree and `max dp[i-1][j] dp[i][j-1]` otherwise, and dropping the last
token of a prefix is dropping the head of its reversal.  The memoised
table is replaced by plain recursion, which computes the same values. -/
def lcsLenRev {α : Type} [DecidableEq α] : List α → List α → Nat
  | [], _ => 0
  | _ :: _, [] => 0
  | x :: a, y :: b =>
    if x = y then lcsLenRev a b + 1
    else max (lcsLenRev a (y :: b)) (lcsLenRev (x :: a) b)
  termination_by a b => a.length + b.length

/-- The backtracking loop of `_lcs_tokens` (alignment.py lines 85-96) on
reversed prefixes: take the common last token when the two agree, else step
towards the larger table entry (strictly-greater favours dropping from the
first list, mirroring `dp[i-1][j] > dp[i][j-1]`).  The collected tokens
come out in back-to-front order, exactly like the `lcs` list of the source
before its final `reversed`. -/
def lcsRecRev {α : Type} [DecidableEq α] : List α → List α → List α
  | [], _ => []
  | _ :: _, [] => []
  | x :: a, y :: b =>
    if x = y then x :: lcsRecRev a b
    else if lcsLenRev a (y :: b) > lcsLenRev (x :: a) b then
      lcsRecRev a (y :: b)
    else lcsRecRev (x :: a) b
  termination_by a b => a.length + b.length

/-- Embedding of `_lcs_tokens` (alignment.py lines 71-98): build the table
over prefixes and backtrack from the full lengths; in the reversed-prefix
formulation this is the backtracking recursion applied to the reversed
inputs, with the final `reversed` restoring token order. -/
def lcsTokens {α : Type} [DecidableEq α] (tokens_a tokens_b : List α) :
    List α :=
  (lcsRecRev tokens_a.reverse tokens_b.reverse).reverse

/-! ## Specification-side predicates

The spec describes version bumps in terms of removed, added and retyped
slots; these predicates state those conditions directly as propositions
over the embedded templates. -/

/-- Some slot of the old template has a name absent from the new one. -/
def slotRemoved (old_t new_t : CanonicalTemplate) : Prop :=
  ∃ s ∈ old_t.slots, ∀ t ∈ new_t.slots, t.name ≠ s.name

/-- Some slot of the new template has a name absent from the old one. -/
def slotAdded (old_t new_t : CanonicalTemplate) : Prop :=
  ∃ t ∈ new_t.slots, ∀ s ∈ old_t.slots, s.name ≠ t.name

/-- Some name common to both templates carries different slot types. -/
def slotRetyped (old_t new_t : CanonicalTemplate) : Prop :=
  ∃ s ∈ old_t.slots, ∃ t ∈ new_t.slots,
    s.name = t.name ∧ s.slot_type ≠ t.slot_type

instance instDecSlotRemoved (o n : CanonicalTemplate) :
    Decidable (slotRemoved o n) := by
  unfold slotRemoved; infer_instance

instance instDecSlotAdded (o n : CanonicalTemplate) :
    Decidable (slotAdded o n) := by
  unfold slotAdded; infer_instance

instance instDecSlotRetyped (o n : CanonicalTemplate) :
    Decidable (slotRetyped o n) := by
  unfold slotRetyped; infer_instance

/-! ## Concrete inputs used by counterexamples and witnesses -/

/-- A template row serving as the stored active template of family `f0`. -/
def row0 : TemplateRow :=
  { template_id := "t0", family_id := "f0", parent_template_id := none
    is_active := true, template_text := "old text", slots := []
    version_major := 1, version_minor := 0, version_patch := 0 }

/-- An alignment whose two variable regions both carry a single ISO-date
example, so that slot typing classifies both regions as DATE. -/
def dateAlignment : AlignmentResult :=
  { common_structure := ""
    variable_regions := [(0, 1, ["2024-01-01"]), (2, 3, ["2023-05-05"])]
    prompts := [] }

/-- A required text slot named `x` with no default value. -/
def slotX : Slot :=
  { name := "x", slot_type := .text, position := 0, examples := [] }

/-- A template consisting of exactly the placeholder of `slotX`. -/
def tmplX : CanonicalTemplate :=
  { text := "\x7b\x7bx\x7d\x7d", slots := [slotX] }

/-- An ingestion instance with a fingerprint, for the dedup witnesses. -/
def instA : IngestInstance :=
  { prompt_id := "p-a"
    normalized_text := "write a python script to scrape a website"
    dedup_hash := "hash-a", simhash := some 5 }

/-- A second arrival of the same text as `instA` under a fresh id. -/
def instA2 : IngestInstance :=
  { prompt_id := "p-b"
    normalized_text := "write a python script to scrape a website"
    dedup_hash := "hash-a", simhash := some 5 }

/-! ## Theorems -/

/-- C3: normalization is claimed to remove every character that is neither
alphanumeric nor whitespace, so an underscore must not survive; but the
source regex `[^\w\s]` treats `_` as a word character, and
`normalize_text "a_b"` returns `"a_b"` even though `_` is neither
alphanumeric nor whitespace. -/
theorem normalize_text_keeps_underscore :
    normalize_text "a_b" = "a_b" ∧ '_'.isAlphanum = false ∧
      isSpaceChar '_' = false :=
  ⟨by decide, by decide, by decide⟩

/-- C2: a template extraction for a family that already has a template,
routed through `TemplateGenerator.process_family`, raises an
`AttributeError` inside `TemplateRepository.update_template` (the
`Template` model has no `template_version` attribute) before anything is
committed: the extraction never returns an updated table, so no new row
with a `parent_template_id` link is inserted and no active flag flips —
contradicting the claimed insert-new-row-and-flip behaviour. -/
theorem generator_extraction_fails :
    generatorUpdateExtraction [row0] "f0" "new text" [] =
      Except.error
        "AttributeError: Template object has no attribute template_version" ∧
    ∀ store2 : List TemplateRow,
      generatorUpdateExtraction [row0] "f0" "new text" [] ≠
        Except.ok store2 := by
  refine ⟨rfl, fun store2 h => ?_⟩
  rw [show generatorUpdateExtraction [row0] "f0" "new text" [] =
      Except.error
        "AttributeError: Template object has no attribute template_version"
    from rfl] at h
  exact Except.noConfusion h

/-- C7: slot names produced by the extraction pipeline are claimed to be
pairwise distinct, but on an alignment with two DATE-typed variable
regions `detect_slots` names both slots `date`. -/
theorem detect_slots_duplicate_date_names :
    (detect_slots dateAlignment).map (fun s => s.name) = ["date", "date"] ∧
    ¬ ((detect_slots dateAlignment).map (fun s => s.name)).Nodup :=
  ⟨by decide, by decide⟩

/-- C6: a tick of `IncrementalWorker.run_cycle` runs the full classifier
exactly when the classified count is below the bootstrap threshold (50 in
the source), and the incremental assignment path is reachable only at or
above the threshold. -/
theorem run_cycle_bootstrap_gate (c p b : Nat) (h : Bool) :
    (runCycleMode c p b h = .fullClassification ↔ c < BOOTSTRAP_THRESHOLD) ∧
    (runCycleMode c p b h = .incremental → BOOTSTRAP_THRESHOLD ≤ c) := by
  unfold runCycleMode
  by_cases hc : c < BOOTSTRAP_THRESHOLD
  · rw [if_pos hc]
    exact ⟨⟨fun _ => hc, fun _ => rfl⟩, fun hm => absurd hm (by decide)⟩
  · rw [if_neg hc]
    refine ⟨⟨fun hm => ?_, fun hlt => absurd hlt hc⟩,
      fun _ => Nat.le_of_not_lt hc⟩
    exfalso
    by_cases hp : p < b
    · rw [if_pos hp] at hm; exact CycleMode.noConfusion hm
    · rw [if_neg hp] at hm
      by_cases hh : (!h) = true
      · rw [if_pos hh] at hm; exact CycleMode.noConfusion hm
      · rw [if_neg hh] at hm; exact CycleMode.noConfusion hm

/-- Witness for C6: with 10 classified prompts the tick takes the
bootstrap full-classification path. -/
theorem run_cycle_bootstrap_gate_witness :
    runCycleMode 10 0 500 false = .fullClassification :=
  (run_cycle_bootstrap_gate 10 0 500 false).1.mpr (by decide)

/-- C9: ingesting the same text twice (same normalized text, hence the
same deterministic SHA-256 dedup hash) through the worker loop stores
exactly one prompt; the second arrival hits the exact-hash check and is
discarded, giving `saved = 1`, `exact_duplicates = 1`,
`near_duplicates = 0`. -/
theorem ingest_same_text_twice (i1 i2 : IngestInstance)
    (htext : i1.normalized_text ≠ "")
    (hsame : i2.normalized_text = i1.normalized_text)
    (hhash : i2.dedup_hash = i1.dedup_hash) :
    (runIngest 3 emptyIngestState [i1, i2]).store = [i1] ∧
    (runIngest 3 emptyIngestState [i1, i2]).saved = 1 ∧
    (runIngest 3 emptyIngestState [i1, i2]).exact_dups = 1 ∧
    (runIngest 3 emptyIngestState [i1, i2]).near_dups = 0 := by
  cases hsh : i1.simhash with
  | none =>
    simp [runIngest, ingestStep, emptyIngestState, htext, hsame, hhash, hsh,
      nearDupScan]
  | some fp =>
    simp [runIngest, ingestStep, emptyIngestState, htext, hsame, hhash, hsh,
      nearDupScan]

/-- Witness for C9 at a concrete pair of instances carrying the same
text and hash. -/
theorem ingest_same_text_twice_witness :
    (runIngest 3 emptyIngestState [instA, instA2]).store = [instA] ∧
    (runIngest 3 emptyIngestState [instA, instA2]).saved = 1 ∧
    (runIngest 3 emptyIngestState [instA, instA2]).exact_dups = 1 ∧
    (runIngest 3 emptyIngestState [instA, instA2]).near_dups = 0 :=
  ingest_same_text_twice instA instA2 (by decide) (by decide) (by decide)

/-- C1: the near-hit lookup is claimed to return the stored prompt with
the smallest Hamming distance within the threshold; but with stored
fingerprints 7 (distance 3) and 1 (distance 1) to a candidate whose
SimHash is 0, `is_near_duplicate` returns the first indexed prompt `p1` at
distance 3 even though `p2` lies within the threshold at distance 1. -/
theorem near_hit_not_smallest_distance :
    isNearDuplicate (fun _ => 0) 3 [("p1", 7), ("p2", 1)] "a" =
      (true, some "p1", some 3) ∧
    hammingDistance (simhashWith (fun _ => 0) 64 "a") 1 = 1 ∧ 1 < 3 :=
  ⟨by decide, by decide, by decide⟩

/-- C1 (amended): the near-hit scan returns the first stored prompt in
index order whose fingerprint lies within the threshold, together with its
distance, and returns none exactly when every stored fingerprint is
farther than the threshold. -/
theorem nearDupScan_first_hit (fp t : Nat) (fps : List (String × Nat)) :
    (nearDupScan fp fps t = none ↔
      ∀ q ∈ fps, t < hammingDistance fp q.2) ∧
    (∀ pid d, nearDupScan fp fps t = some (pid, d) →
      d ≤ t ∧ ∃ pre efp post,
        fps = pre ++ (pid, efp) :: post ∧ hammingDistance fp efp = d ∧
        ∀ q ∈ pre, t < hammingDistance fp q.2) := by
  induction fps with
  | nil => simp [nearDupScan]
  | cons hd tl ih =>
    obtain ⟨pid0, efp0⟩ := hd
    by_cases hle : hammingDistance fp efp0 ≤ t
    · refine ⟨⟨fun hnone => ?_, fun hall => ?_⟩, fun pid d hsome => ?_⟩
      · simp [nearDupScan, hle] at hnone
      · have h := hall (pid0, efp0) (List.mem_cons_self _ _)
        exact absurd hle (Nat.not_le.mpr h)
      · simp [nearDupScan, hle] at hsome
        obtain ⟨h1, h2⟩ := hsome
        subst h1
        exact ⟨by omega, [], efp0, tl, by simp, h2, by simp⟩
    · have hgt : t < hammingDistance fp efp0 := Nat.lt_of_not_le hle
      have hstep : nearDupScan fp ((pid0, efp0) :: tl) t =
          nearDupScan fp tl t := by
        conv_lhs => rw [nearDupScan]
        simp [hle]
      refine ⟨?_, fun pid d hsome => ?_⟩
      · rw [hstep, ih.1]
        constructor
        · intro hall q hq
          rcases List.mem_cons.mp hq with rfl | hq2
          · exact hgt
          · exact hall q hq2
        · intro hall q hq
          exact hall q (List.mem_cons_of_mem _ hq)
      · rw [hstep] at hsome
        obtain ⟨hd_le, pre, efp, post, heq, hdist, hpre⟩ := ih.2 pid d hsome
        refine ⟨hd_le, (pid0, efp0) :: pre, efp, post, by simp [heq], hdist,
          fun q hq => ?_⟩
        rcases List.mem_cons.mp hq with rfl | hq2
        · exact hgt
        · exact hpre q hq2

/-- Witness for the amended C1 statement: the empty index yields no near
hit. -/
theorem nearDupScan_first_hit_witness :
    nearDupScan 0 ([] : List (String × Nat)) 3 = none :=
  (nearDupScan_first_hit 0 3 []).1.mpr (by simp)

/-- The removed-slots boolean test agrees with the removed-slot
predicate. -/
theorem removedSlotsB_iff (o n : CanonicalTemplate) :
    removedSlotsB o n = true ↔ slotRemoved o n := by
  unfold removedSlotsB slotRemoved
  simp [List.any_eq_true, List.mem_map]

/-- The added-slots boolean test agrees with the added-slot predicate. -/
theorem addedSlotsB_iff (o n : CanonicalTemplate) :
    addedSlotsB o n = true ↔ slotAdded o n := by
  unfold addedSlotsB slotAdded
  simp [List.any_eq_true, List.mem_map]

/-- The retyped-slots boolean test agrees with the retyped-slot
predicate. -/
theorem retypedSlotsB_iff (o n : CanonicalTemplate) :
    retypedSlotsB o n = true ↔ slotRetyped o n := by
  unfold retypedSlotsB slotRetyped
  simp [List.any_eq_true]

/-- C4: the computed bump is MAJOR iff a slot was removed or a common slot
changed type, MINOR iff a slot was added with no MAJOR trigger, PATCH iff
only the text changed, NONE iff none of these changes happened (at the
granularity the claim describes: slot names, slot types, template text);
and the resulting version is (m+1,0,0), (m,n+1,0), (m,n,p+1) or (m,n,p)
respectively. -/
theorem compute_version_bump_spec (o n : CanonicalTemplate)
    (vm vn vp : Nat) :
    ((compute_version_bump o n (some ⟨vm, vn, vp⟩)).bump_type = .MAJOR ↔
      slotRemoved o n ∨ slotRetyped o n) ∧
    ((compute_version_bump o n (some ⟨vm, vn, vp⟩)).bump_type = .MINOR ↔
      slotAdded o n ∧ ¬ slotRemoved o n ∧ ¬ slotRetyped o n) ∧
    ((compute_version_bump o n (some ⟨vm, vn, vp⟩)).bump_type = .PATCH ↔
      o.text ≠ n.text ∧ ¬ slotAdded o n ∧ ¬ slotRemoved o n ∧
        ¬ slotRetyped o n) ∧
    ((compute_version_bump o n (some ⟨vm, vn, vp⟩)).bump_type = .NONE ↔
      o.text = n.text ∧ ¬ slotAdded o n ∧ ¬ slotRemoved o n ∧
        ¬ slotRetyped o n) ∧
    ((compute_version_bump o n (some ⟨vm, vn, vp⟩)).new_version =
      match (compute_version_bump o n (some ⟨vm, vn, vp⟩)).bump_type with
      | .MAJOR => ⟨vm + 1, 0, 0⟩
      | .MINOR => ⟨vm, vn + 1, 0⟩
      | .PATCH => ⟨vm, vn, vp + 1⟩
      | .NONE => ⟨vm, vn, vp⟩) := by
  have hRb : removedSlotsB o n = decide (slotRemoved o n) := by
    rw [Bool.eq_iff_iff]
    simp [removedSlotsB_iff]
  have hAb : addedSlotsB o n = decide (slotAdded o n) := by
    rw [Bool.eq_iff_iff]
    simp [addedSlotsB_iff]
  have hTb : retypedSlotsB o n = decide (slotRetyped o n) := by
    rw [Bool.eq_iff_iff]
    simp [retypedSlotsB_iff]
  by_cases hR : slotRemoved o n <;> by_cases hT : slotRetyped o n <;>
    by_cases hA : slotAdded o n <;> by_cases hts : o.text = n.text <;>
      simp [compute_version_bump, hRb, hTb, hAb, hR, hT, hA, hts,
        TemplateVersion.bump]

/-- Witness for C4: an unchanged template bumps to NONE. -/
theorem compute_version_bump_spec_witness :
    (compute_version_bump tmplX tmplX (some ⟨1, 0, 0⟩)).bump_type =
      VersionBumpType.NONE :=
  (compute_version_bump_spec tmplX tmplX 1 0 0).2.2.2.1.mpr
    ⟨rfl, by decide, by decide, by decide⟩

/-- A lookup skips a leading entry with a different key. -/
theorem pyDictGet_cons_ne {α : Type} (p : String × α) (m : List (String × α))
    (k : String) (hp : p.1 ≠ k) : pyDictGet (p :: m) k = pyDictGet m k := by
  unfold pyDictGet
  simp [List.find?_cons, hp]

/-- Overwriting the entries of key `k2` does not change a lookup of a
different key. -/
theorem pyDictGet_map_insert_ne {α : Type} (m : List (String × α))
    (k k2 : String) (v : α) (h : k2 ≠ k) :
    pyDictGet (m.map (fun q => if q.1 = k2 then (k2, v) else q)) k =
      pyDictGet m k := by
  induction m with
  | nil => rfl
  | cons q m ih =>
    rw [List.map_cons]
    by_cases hqk : q.1 = k
    · have hq2 : ¬ q.1 = k2 := fun hh => h (hh.symm.trans hqk)
      rw [if_neg hq2]
      unfold pyDictGet
      simp [List.find?_cons, hqk]
    · by_cases hq2 : q.1 = k2
      · rw [if_pos hq2, pyDictGet_cons_ne (k2, v) _ k h,
          pyDictGet_cons_ne q m k hqk]
        exact ih
      · rw [if_neg hq2, pyDictGet_cons_ne q _ k hqk,
          pyDictGet_cons_ne q m k hqk]
        exact ih

/-- Appending an entry of a different key does not change a lookup. -/
theorem pyDictGet_append_single_ne {α : Type} (m : List (String × α))
    (k k2 : String) (v : α) (h : k2 ≠ k) :
    pyDictGet (m ++ [(k2, v)]) k = pyDictGet m k := by
  induction m with
  | nil => simp [pyDictGet, List.find?, h]
  | cons q m ih =>
    by_cases hqk : q.1 = k
    · unfold pyDictGet
      simp [List.find?_cons, hqk]
    · rw [List.cons_append, pyDictGet_cons_ne q _ k hqk,
        pyDictGet_cons_ne q m k hqk]
      exact ih

/-- A dict insert leaves lookups of other keys unchanged. -/
theorem pyDictGet_insert_ne {α : Type} (m : List (String × α))
    (k k2 : String) (v : α) (h : k2 ≠ k) :
    pyDictGet (pyDictInsert m k2 v) k = pyDictGet m k := by
  unfold pyDictInsert
  by_cases hany : m.any (fun q => q.1 = k2)
  · rw [if_pos hany]
    exact pyDictGet_map_insert_ne m k k2 v h
  · rw [if_neg hany]
    exact pyDictGet_append_single_ne m k k2 v h

/-- After overwriting the entries of a present key, its lookup yields the
new value. -/
theorem pyDictGet_map_insert_self {α : Type} (m : List (String × α))
    (k : String) (v : α) (hany : m.any (fun q => q.1 = k) = true) :
    pyDictGet (m.map (fun q => if q.1 = k then (k, v) else q)) k = some v := by
  induction m with
  | nil => simp at hany
  | cons q m ih =>
    rw [List.map_cons]
    by_cases hq : q.1 = k
    · rw [if_pos hq]
      unfold pyDictGet
      simp [List.find?_cons]
    · rw [if_neg hq, pyDictGet_cons_ne q _ k hq]
      apply ih
      simpa [List.any_cons, hq] using hany

/-- Appending an entry for an absent key makes its lookup yield the new
value. -/
theorem pyDictGet_append_single_self {α : Type} (m : List (String × α))
    (k : String) (v : α) (hany : m.any (fun q => q.1 = k) = false) :
    pyDictGet (m ++ [(k, v)]) k = some v := by
  induction m with
  | nil => simp [pyDictGet, List.find?]
  | cons q m ih =>
    rw [List.any_cons, Bool.or_eq_false_iff] at hany
    have hq : ¬ q.1 = k := by
      simpa using hany.1
    rw [List.cons_append, pyDictGet_cons_ne q _ k hq]
    exact ih hany.2

/-- A dict insert makes the lookup of its key yield the inserted value. -/
theorem pyDictGet_insert_self {α : Type} (m : List (String × α))
    (k : String) (v : α) :
    pyDictGet (pyDictInsert m k v) k = some v := by
  unfold pyDictInsert
  by_cases hany : m.any (fun q => q.1 = k)
  · rw [if_pos hany]
    exact pyDictGet_map_insert_self m k v hany
  · rw [if_neg hany]
    exact pyDictGet_append_single_self m k v (Bool.eq_false_iff.mpr hany)

/-- One step of the `final_params` fold. -/
theorem finalParamsFrom_cons (s0 : Slot) (tl : List Slot)
    (params acc : List (String × String)) :
    finalParamsFrom (s0 :: tl) params acc =
      finalParamsFrom tl params
        (match pyDictGet params s0.name with
         | some v => pyDictInsert acc s0.name v
         | none =>
           match s0.default_value with
           | some d => pyDictInsert acc s0.name d
           | none =>
             if !s0.required then pyDictInsert acc s0.name ""
             else acc) := rfl

/-- Slots whose names differ from `k` leave the lookup of `k` in the
`final_params` fold unchanged. -/
theorem finalParamsFrom_skip (tl : List Slot)
    (params : List (String × String)) (k : String)
    (h : ∀ s ∈ tl, s.name ≠ k) :
    ∀ acc, pyDictGet (finalParamsFrom tl params acc) k = pyDictGet acc k := by
  induction tl with
  | nil => intro acc; rfl
  | cons s0 rest ih =>
    intro acc
    have hs : s0.name ≠ k := h s0 (List.mem_cons_self _ _)
    rw [finalParamsFrom_cons]
    rw [ih (fun t ht => h t (List.mem_cons_of_mem _ ht))]
    cases hp : pyDictGet params s0.name with
    | some v => exact pyDictGet_insert_ne acc k s0.name v hs
    | none =>
      cases hd : s0.default_value with
      | some d => exact pyDictGet_insert_ne acc k s0.name d hs
      | none =>
        by_cases hr : s0.required
        · simp [hr]
        · simp only [hr, Bool.not_false, if_pos]
          exact pyDictGet_insert_ne acc k s0.name "" hs

/-- Value of the `final_params` dictionary at a slot without a provided
value, for templates with distinct slot names: the default when present,
the empty string for optional slots, and no entry (the starting
dictionary's entry) for required slots without a default. -/
theorem finalParamsFrom_lookup (slots : List Slot)
    (params : List (String × String)) :
    ∀ (acc : List (String × String)) (s : Slot), s ∈ slots →
      (slots.map (fun t => t.name)).Nodup →
      pyDictGet params s.name = none →
      pyDictGet (finalParamsFrom slots params acc) s.name =
        (match s.default_value with
         | some d => some d
         | none =>
           if s.required then pyDictGet acc s.name else some "") := by
  induction slots with
  | nil => intro acc s hs; exact absurd hs (List.not_mem_nil s)
  | cons s0 tl ih =>
    intro acc s hs hnd habs
    rw [List.map_cons, List.nodup_cons] at hnd
    rcases List.mem_cons.mp hs with rfl | hmem
    · have hnot : ∀ t ∈ tl, t.name ≠ s.name := by
        intro t ht heq
        exact hnd.1 (heq ▸ List.mem_map_of_mem (fun u => u.name) ht)
      rw [finalParamsFrom_cons, finalParamsFrom_skip tl params s.name hnot]
      rw [habs]
      cases hdv : s.default_value with
      | some d => simp [pyDictGet_insert_self]
      | none =>
        by_cases hr : s.required
        · simp [hr]
        · simp [hr, pyDictGet_insert_self]
    · have hne : s0.name ≠ s.name := by
        intro heq
        exact hnd.1 (heq ▸ List.mem_map_of_mem (fun u => u.name) hmem)
      rw [finalParamsFrom_cons]
      rw [ih _ s hmem hnd.2 habs]
      cases hdv : s.default_value with
      | some d => rfl
      | none =>
        by_cases hr : s.required
        · simp only [hr, if_pos]
          cases hp : pyDictGet params s0.name with
          | some v => exact pyDictGet_insert_ne acc s.name s0.name v hne
          | none =>
            cases hd0 : s0.default_value with
            | some d0 => exact pyDictGet_insert_ne acc s.name s0.name d0 hne
            | none =>
              by_cases hr0 : s0.required
              · simp [hr0]
              · simp only [hr0, Bool.not_false, if_pos]
                exact pyDictGet_insert_ne acc s.name s0.name "" hne
        · simp [hr]

/-- C8 (amended): strict-mode rendering returns the validator's error list
and no rendered text exactly when validation fails, and otherwise renders;
in non-strict mode rendering always succeeds on the interpolated text, and
every slot lacking a provided value is filled with its default value when
it has one, with the empty string when it is optional, and is left without
an entry (hence unfilled) when it is required and has no default. -/
theorem render_template_spec (t : CanonicalTemplate)
    (ps : List (String × String))
    (hnd : (t.slots.map (fun s => s.name)).Nodup) :
    ((render_template t ps true).success = false ∧
     (render_template t ps true).rendered_text = none ∧
     (render_template t ps true).errors = (validate t.slots ps).errors ↔
       (validate t.slots ps).is_valid = false) ∧
    ((validate t.slots ps).is_valid = true →
      render_template t ps true =
        { success := true
          rendered_text := some (interpolate t.text (finalParams t.slots ps))
          validation := some (validate t.slots ps), errors := [] }) ∧
    (render_template t ps false =
      { success := true
        rendered_text := some (interpolate t.text (finalParams t.slots ps))
        validation := none, errors := [] }) ∧
    (∀ s ∈ t.slots, pyDictGet ps s.name = none →
      pyDictGet (finalParams t.slots ps) s.name =
        (match s.default_value with
         | some d => some d
         | none => if s.required then none else some "")) := by
  refine ⟨?_, ?_, ?_, ?_⟩
  · cases hv : (validate t.slots ps).is_valid with
    | false => simp [render_template, hv]
    | true => simp [render_template, hv]
  · intro hv
    simp [render_template, hv]
  · rfl
  · intro s hs habs
    rw [finalParams, finalParamsFrom_lookup t.slots ps [] s hs hnd habs]
    cases s.default_value with
    | some d => rfl
    | none =>
      by_cases hr : s.required
      · simp [hr, pyDictGet, List.find?]
      · simp [hr]

/-- Counterexample for C8 as stated: rendering `tmplX` (one required slot
`x`, no default) in non-strict mode with no parameters leaves the
placeholder in the output instead of filling the slot with the empty
string — filling it would have produced the empty rendering. -/
theorem render_nonstrict_required_not_filled :
    (render_template tmplX [] false).rendered_text =
      some "\x7b\x7bx\x7d\x7d" ∧
    pyDictGet (finalParams tmplX.slots []) "x" = none ∧
    interpolate tmplX.text [("x", "")] = "" :=
  ⟨by decide, by decide, by decide⟩

/-- Witness for the amended C8 statement on a concrete template. -/
theorem render_template_spec_witness :
    render_template tmplX [] false =
      { success := true
        rendered_text :=
          some (interpolate tmplX.text (finalParams tmplX.slots []))
        validation := none, errors := [] } :=
  (render_template_spec tmplX [] (by decide)).2.2.1

/-- The scan keeps a running maximum: the accumulator's similarity never
decreases. -/
theorem bestFold_le (f : String × List ℚ → ℚ) (l : List (String × List ℚ)) :
    ∀ acc, acc.2 ≤ (bestFold f acc l).2 := by
  induction l with
  | nil => intro acc; exact le_refl _
  | cons hd tl ih =>
    intro acc
    have hstep : acc.2 ≤ (if f hd > acc.2 then (some hd.1, f hd) else acc).2 := by
      by_cases h : f hd > acc.2
      · rw [if_pos h]; exact le_of_lt h
      · rw [if_neg h]
    exact le_trans hstep (ih _)

/-- Every scanned similarity is bounded by the final best similarity. -/
theorem bestFold_ub (f : String × List ℚ → ℚ) (l : List (String × List ℚ)) :
    ∀ acc, ∀ fc ∈ l, f fc ≤ (bestFold f acc l).2 := by
  induction l with
  | nil => intro acc fc hfc; exact absurd hfc (List.not_mem_nil fc)
  | cons hd tl ih =>
    intro acc fc hfc
    rcases List.mem_cons.mp hfc with rfl | hmem
    · have hstep : f fc ≤ (if f fc > acc.2 then (some fc.1, f fc) else acc).2 := by
        by_cases h : f fc > acc.2
        · rw [if_pos h]
        · rw [if_neg h]; exact le_of_not_lt h
      exact le_trans hstep (bestFold_le f tl _)
    · exact ih _ fc hmem

/-- The scan either leaves the accumulator untouched or settles on some
scanned family together with its similarity. -/
theorem bestFold_origin (f : String × List ℚ → ℚ)
    (l : List (String × List ℚ)) :
    ∀ acc, bestFold f acc l = acc ∨
      ∃ fc ∈ l, (bestFold f acc l).1 = some fc.1 ∧
        (bestFold f acc l).2 = f fc := by
  induction l with
  | nil => intro acc; exact Or.inl rfl
  | cons hd tl ih =>
    intro acc
    rcases ih (if f hd > acc.2 then (some hd.1, f hd) else acc) with heq | hex
    · by_cases h : f hd > acc.2
      · refine Or.inr ⟨hd, List.mem_cons_self _ _, ?_, ?_⟩
        · show (bestFold f acc (hd :: tl)).1 = some hd.1
          rw [show bestFold f acc (hd :: tl) =
              bestFold f (if f hd > acc.2 then (some hd.1, f hd) else acc) tl
            from rfl, heq, if_pos h]
        · rw [show bestFold f acc (hd :: tl) =
              bestFold f (if f hd > acc.2 then (some hd.1, f hd) else acc) tl
            from rfl, heq, if_pos h]
      · refine Or.inl ?_
        rw [show bestFold f acc (hd :: tl) =
            bestFold f (if f hd > acc.2 then (some hd.1, f hd) else acc) tl
          from rfl, heq, if_neg h]
    · obtain ⟨fc, hmem, h1, h2⟩ := hex
      exact Or.inr ⟨fc, List.mem_cons_of_mem _ hmem, h1, h2⟩

/-- C5: for every embedding and non-empty centroid map, and any similarity
in the cosine range [-1, 1] with a threshold above -1 (0.60 by default),
`find_nearest_family` reports the maximal similarity; when that maximum
reaches the threshold it returns a family attaining it, and otherwise it
returns no family (the prompt stays unclustered). -/
theorem find_nearest_family_spec (cosSim : List ℚ → List ℚ → ℚ) (τ : ℚ)
    (e : List ℚ) (cs : List (String × List ℚ))
    (hne : cs ≠ [])
    (hrange : ∀ fc ∈ cs, -1 ≤ cosSim e fc.2)
    (hτ : -1 < τ) :
    (∃ fc ∈ cs, (findNearestFamily cosSim τ e cs).2 = cosSim e fc.2) ∧
    (∀ fc ∈ cs, cosSim e fc.2 ≤ (findNearestFamily cosSim τ e cs).2) ∧
    (τ ≤ (findNearestFamily cosSim τ e cs).2 →
      ∃ fc ∈ cs, (findNearestFamily cosSim τ e cs).1 = some fc.1 ∧
        cosSim e fc.2 = (findNearestFamily cosSim τ e cs).2) ∧
    ((findNearestFamily cosSim τ e cs).2 < τ →
      (findNearestFamily cosSim τ e cs).1 = none) := by
  have hne2 : cs.isEmpty = false := by
    cases cs with
    | nil => exact absurd rfl hne
    | cons hd tl => rfl
  have hdef : findNearestFamily cosSim τ e cs =
      (if (bestFold (fun fc => cosSim e fc.2) (none, -1) cs).2 ≥ τ then
        ((bestFold (fun fc => cosSim e fc.2) (none, -1) cs).1,
         (bestFold (fun fc => cosSim e fc.2) (none, -1) cs).2)
      else (none, (bestFold (fun fc => cosSim e fc.2) (none, -1) cs).2)) := by
    unfold findNearestFamily bestFold
    rw [hne2]
    rfl
  have hsnd : (findNearestFamily cosSim τ e cs).2 =
      (bestFold (fun fc => cosSim e fc.2) (none, -1) cs).2 := by
    rw [hdef]
    by_cases h : (bestFold (fun fc => cosSim e fc.2) (none, -1) cs).2 ≥ τ
    · rw [if_pos h]
    · rw [if_neg h]
  have hub := bestFold_ub (fun fc => cosSim e fc.2) cs (none, -1)
  have horigin := bestFold_origin (fun fc => cosSim e fc.2) cs (none, -1)
  refine ⟨?_, ?_, ?_, ?_⟩
  · rcases horigin with heq | ⟨fc, hmem, h1, h2⟩
    · cases cs with
      | nil => exact absurd rfl hne
      | cons hd tl =>
        refine ⟨hd, List.mem_cons_self _ _, ?_⟩
        have hle := hub hd (List.mem_cons_self _ _)
        rw [heq] at hle
        have hge := hrange hd (List.mem_cons_self _ _)
        have hsim : cosSim e hd.2 = -1 := le_antisymm hle hge
        rw [hsnd, heq, hsim]
    · exact ⟨fc, hmem, by rw [hsnd, h2]⟩
  · intro fc hmem
    rw [hsnd]
    exact hub fc hmem
  · intro hth
    rw [hsnd] at hth
    rcases horigin with heq | ⟨fc, hmem, h1, h2⟩
    · rw [heq] at hth
      exact absurd (lt_of_lt_of_le hτ hth) (lt_irrefl _)
    · refine ⟨fc, hmem, ?_, by rw [hsnd, h2]⟩
      rw [hdef, if_pos hth]
      exact h1
  · intro hlt
    rw [hsnd] at hlt
    rw [hdef, if_neg (not_le.mpr hlt)]

/-- Witness for C5: a single centroid at similarity 1 against the default
threshold 0.60. -/
theorem find_nearest_family_spec_witness :
    ∃ fc ∈ [("food", ([] : List ℚ))],
      (findNearestFamily (fun _ _ => (1 : ℚ)) (3 / 5) []
        [("food", [])]).2 = 1 :=
  (find_nearest_family_spec (fun _ _ => (1 : ℚ)) (3 / 5) [] [("food", [])]
    (by simp) (by intro fc _; norm_num) (by norm_num)).1

/-- The backtracking result is a subsequence of the first input. -/
theorem lcsRecRev_sublist_left {α : Type} [DecidableEq α] :
    (a b : List α) → List.Sublist (lcsRecRev a b) a
  | [], _ => by rw [lcsRecRev]
  | _ :: _, [] => by rw [lcsRecRev]; exact List.nil_sublist _
  | x :: a, y :: b => by
    rw [lcsRecRev]
    by_cases h : x = y
    · rw [if_pos h]
      exact (lcsRecRev_sublist_left a b).cons₂ x
    · rw [if_neg h]
      by_cases hgt : lcsLenRev a (y :: b) > lcsLenRev (x :: a) b
      · rw [if_pos hgt]
        exact (lcsRecRev_sublist_left a (y :: b)).cons x
      · rw [if_neg hgt]
        exact lcsRecRev_sublist_left (x :: a) b
  termination_by a b => a.length + b.length

/-- The backtracking result is a subsequence of the second input. -/
theorem lcsRecRev_sublist_right {α : Type} [DecidableEq α] :
    (a b : List α) → List.Sublist (lcsRecRev a b) b
  | [], _ => by rw [lcsRecRev]; exact List.nil_sublist _
  | _ :: _, [] => by rw [lcsRecRev]
  | x :: a, y :: b => by
    rw [lcsRecRev]
    by_cases h : x = y
    · rw [if_pos h, h]
      exact (lcsRecRev_sublist_right a b).cons₂ y
    · rw [if_neg h]
      by_cases hgt : lcsLenRev a (y :: b) > lcsLenRev (x :: a) b
      · rw [if_pos hgt]
        exact lcsRecRev_sublist_right a (y :: b)
      · rw [if_neg hgt]
        exact (lcsRecRev_sublist_right (x :: a) b).cons y
  termination_by a b => a.length + b.length

/-- The backtracking result has exactly the table's length. -/
theorem lcsRecRev_length {α : Type} [DecidableEq α] :
    (a b : List α) → (lcsRecRev a b).length = lcsLenRev a b
  | [], _ => by rw [lcsRecRev, lcsLenRev]; rfl
  | _ :: _, [] => by rw [lcsRecRev, lcsLenRev]; rfl
  | x :: a, y :: b => by
    rw [lcsRecRev, lcsLenRev]
    by_cases h : x = y
    · rw [if_pos h, if_pos h, List.length_cons, lcsRecRev_length a b]
    · rw [if_neg h, if_neg h]
      by_cases hgt : lcsLenRev a (y :: b) > lcsLenRev (x :: a) b
      · rw [if_pos hgt, lcsRecRev_length a (y :: b)]
        omega
      · rw [if_neg hgt, lcsRecRev_length (x :: a) b]
        omega
  termination_by a b => a.length + b.length

/-- The table value bounds the length of every common subsequence. -/
theorem lcsLenRev_is_ub {α : Type} [DecidableEq α] :
    (a b s : List α) → List.Sublist s a → List.Sublist s b →
      s.length ≤ lcsLenRev a b
  | [], _, s => by
    intro h1 _
    rw [List.sublist_nil.mp h1, lcsLenRev]
    exact Nat.le_refl 0
  | x :: a, [], s => by
    intro _ h2
    rw [List.sublist_nil.mp h2, lcsLenRev]
    exact Nat.le_refl 0
  | x :: a, y :: b, s => by
    intro h1 h2
    rw [lcsLenRev]
    by_cases hxy : x = y
    · rw [if_pos hxy]
      subst hxy
      cases h1 with
      | cons _ h1a =>
        cases h2 with
        | cons _ h2b =>
          exact Nat.le_succ_of_le (lcsLenRev_is_ub a b s h1a h2b)
        | cons₂ _ h2b =>
          rename_i s1
          have h1t : List.Sublist s1 a :=
            (List.sublist_cons_self x s1).trans h1a
          rw [List.length_cons]
          exact Nat.succ_le_succ (lcsLenRev_is_ub a b s1 h1t h2b)
      | cons₂ _ h1a =>
        rename_i s1
        cases h2 with
        | cons _ h2b =>
          have h2t : List.Sublist s1 b :=
            (List.sublist_cons_self x s1).trans h2b
          rw [List.length_cons]
          exact Nat.succ_le_succ (lcsLenRev_is_ub a b s1 h1a h2t)
        | cons₂ _ h2b =>
          rw [List.length_cons]
          exact Nat.succ_le_succ (lcsLenRev_is_ub a b s1 h1a h2b)
    · rw [if_neg hxy]
      cases h1 with
      | cons _ h1a =>
        have := lcsLenRev_is_ub a (y :: b) s h1a h2
        omega
      | cons₂ _ h1a =>
        rename_i s1
        cases h2 with
        | cons _ h2b =>
          have := lcsLenRev_is_ub (x :: a) b (x :: s1) (h1a.cons₂ x) h2b
          omega
        | cons₂ _ h2b =>
          exact absurd rfl hxy
  termination_by a b _ => a.length + b.length

/-- C10: `_lcs_tokens` returns a common subsequence of its two token lists
whose length is maximal among all common subsequences. -/
theorem lcsTokens_spec {α : Type} [DecidableEq α] (a b : List α) :
    List.Sublist (lcsTokens a b) a ∧ List.Sublist (lcsTokens a b) b ∧
    ∀ s : List α, List.Sublist s a → List.Sublist s b →
      s.length ≤ (lcsTokens a b).length := by
  refine ⟨?_, ?_, ?_⟩
  · have h := (lcsRecRev_sublist_left a.reverse b.reverse).reverse
    rwa [List.reverse_reverse] at h
  · have h := (lcsRecRev_sublist_right a.reverse b.reverse).reverse
    rwa [List.reverse_reverse] at h
  · intro s h1 h2
    have h3 := lcsLenRev_is_ub a.reverse b.reverse s.reverse
      h1.reverse h2.reverse
    rw [List.length_reverse] at h3
    unfold lcsTokens
    rw [List.length_reverse, lcsRecRev_length]
    exact h3

/-- Witness for C10 at two concrete token lists. -/
theorem lcsTokens_spec_witness :
    List.Sublist (lcsTokens ["write", "a"] ["write", "b"]) ["write", "a"] :=
  (lcsTokens_spec ["write", "a"] ["write", "b"]).1

end Evolv
